import Mathlib

/-!
Verification of the lead-capture form logic of `src/components/LeadCaptureForm.tsx`.

Strings are modelled as Lean `String`s (sequences of Unicode scalar values);
string lengths count scalar values, matching JavaScript's `.length` on the
characters the form actually manipulates.

The zod schema

  name: z.string().trim().min(1, "Name is required").max(100)
  email: z.string().trim().email("Please enter a valid email").max(255)
  company: z.string().trim().min(1, "Company name is required").max(100)
  phone: z.string().trim().max(20).optional()
  companySize: z.string().min(1, "Please select company size")
  automationGoal: z.string().trim().min(1, "Please describe what you want to automate").max(500)
  currentWorkflow: z.string().min(1, "Please select an option")
  urgency: z.string().min(1, "Please select urgency")

is embedded as per-field issue lists: zod runs a string's checks in order
(`trim` rewrites the value; `min`/`max`/`email` append an issue when they
fail; all checks run, so one field can yield several issues), and the
object schema concatenates the fields' issues in declaration order.
-/

namespace LeadCapture

/-- JavaScript's `\s` character class (also the set removed by
`String.prototype.trim`): tab, LF, VT, FF, CR, space, NBSP, and the
Unicode space separators, line/paragraph separators and BOM. -/
def isJsWhitespace (c : Char) : Bool :=
  let n := c.toNat
  n = 9 || n = 10 || n = 11 || n = 12 || n = 13 || n = 32 || n = 160 ||
  n = 5760 || (8192 ≤ n && n ≤ 8202) || n = 8232 || n = 8233 || n = 8239 ||
  n = 8287 || n = 12288 || n = 65279

/-- Removal of leading and trailing JavaScript whitespace from a character list. -/
def trimList (l : List Char) : List Char :=
  ((l.dropWhile isJsWhitespace).reverse.dropWhile isJsWhitespace).reverse

/-- JavaScript `String.prototype.trim`, as applied by zod's `.trim()` check. -/
def jsTrim (s : String) : String :=
  ⟨trimList s.data⟩

/-- ASCII letters and digits (`[A-Za-z0-9]`, case-insensitive regex classes). -/
def isAlnum (c : Char) : Bool :=
  let n := c.toNat
  (48 ≤ n && n ≤ 57) || (65 ≤ n && n ≤ 90) || (97 ≤ n && n ≤ 122)

/-- ASCII letters (`[A-Za-z]`), the characters allowed in the final domain label. -/
def isLetterChar (c : Char) : Bool :=
  let n := c.toNat
  (65 ≤ n && n ≤ 90) || (97 ≤ n && n ≤ 122)

/-- Characters allowed in the local part of an email
(`[A-Z0-9_'+\-\.]` case-insensitively): alphanumerics, `_`, `'`, `+`, `-`, `.`. -/
def isLocalChar (c : Char) : Bool :=
  isAlnum c || c.toNat = 95 || c.toNat = 39 || c.toNat = 43 || c.toNat = 45 ||
  c.toNat = 46

/-- Characters allowed as the final character of the local part
(`[A-Z0-9_+-]`): alphanumerics, `_`, `+`, `-`. -/
def isLocalEndChar (c : Char) : Bool :=
  isAlnum c || c.toNat = 95 || c.toNat = 43 || c.toNat = 45

/-- No two consecutive dots (the regex lookahead `(?!.*\.\.)`). -/
def noDoubleDot : List Char → Bool
  | '.' :: '.' :: _ => false
  | _ :: rest => noDoubleDot rest
  | [] => true

/-- The local part of an email: nonempty, not starting with a dot
(`(?!\.)`), no double dot, every character but the last drawn from
`isLocalChar` and the last from `isLocalEndChar`
(`([A-Z0-9_'+\-\.]*)[A-Z0-9_+-]`). -/
def localOk (l : List Char) : Bool :=
  match l with
  | [] => false
  | c :: _ =>
    !(c == '.') && noDoubleDot l && l.dropLast.all isLocalChar &&
    isLocalEndChar (l.getLastD ' ')

/-- One non-final domain label: `[A-Z0-9][A-Z0-9\-]*`. -/
def isDomainLabel (l : List Char) : Bool :=
  match l with
  | [] => false
  | c :: rest => isAlnum c && rest.all (fun d => isAlnum d || d.toNat = 45)

/-- The final domain label: `[A-Z]{2,}`, at least two letters. -/
def isTld (l : List Char) : Bool :=
  decide (2 ≤ l.length) && l.all isLetterChar

/-- Split a character list at every occurrence of `sep` (the n occurrences of
`sep` delimit n+1 possibly empty parts). -/
def splitOnChar (sep : Char) : List Char → List (List Char)
  | [] => [[]]
  | c :: rest =>
    match splitOnChar sep rest with
    | [] => [[c]]
    | h :: t => if c = sep then [] :: h :: t else (c :: h) :: t

/-- The domain of an email address (`([A-Z0-9][A-Z0-9\-]*\.)+[A-Z]{2,}`):
splitting at the dots must give at least two parts, every part but the last
a label and the last the letters-only top-level label. Since labels contain
no dot, this decomposition is exactly the regex's. -/
def isDomain (d : List Char) : Bool :=
  let parts := splitOnChar '.' d
  decide (2 ≤ parts.length) && parts.dropLast.all isDomainLabel &&
    isTld (parts.getLastD [])

/-- zod's `.email()` check: the regex
`/^(?!\.)(?!.*\.\.)([A-Z0-9_'+\-\.]*)[A-Z0-9_+-]@([A-Z0-9][A-Z0-9\-]*\.)+[A-Z]{2,}$/i`.
Since neither the local-part nor the domain character class contains `@`,
a matching string has exactly one `@`, which splits it into a local part
and a domain; the no-double-dot lookahead is vacuous over the domain,
whose labels never contain a dot. -/
def zodEmailValid (s : String) : Bool :=
  match splitOnChar '@' s.data with
  | [l, d] => localOk l && isDomain d
  | _ => false

/-- `z.string().trim().min(1, "Name is required").max(100)`. -/
def nameIssues (s : String) : List String :=
  let t := jsTrim s
  (if t.length < 1 then ["Name is required"] else []) ++
  (if 100 < t.length then ["String must contain at most 100 character(s)"] else [])

/-- `z.string().trim().email("Please enter a valid email").max(255)`. -/
def emailIssues (s : String) : List String :=
  let t := jsTrim s
  (if zodEmailValid t = false then ["Please enter a valid email"] else []) ++
  (if 255 < t.length then ["String must contain at most 255 character(s)"] else [])

/-- `z.string().trim().min(1, "Company name is required").max(100)`. -/
def companyIssues (s : String) : List String :=
  let t := jsTrim s
  (if t.length < 1 then ["Company name is required"] else []) ++
  (if 100 < t.length then ["String must contain at most 100 character(s)"] else [])

/-- `z.string().trim().max(20).optional()` (the component always stores a
string in the phone field, so the inner string schema applies). -/
def phoneIssues (s : String) : List String :=
  if 20 < (jsTrim s).length then ["String must contain at most 20 character(s)"] else []

/-- `z.string().min(1, "Please select company size")` — no trim, no upper bound. -/
def companySizeIssues (s : String) : List String :=
  if s.length < 1 then ["Please select company size"] else []

/-- `z.string().trim().min(1, "Please describe what you want to automate").max(500)`. -/
def automationGoalIssues (s : String) : List String :=
  let t := jsTrim s
  (if t.length < 1 then ["Please describe what you want to automate"] else []) ++
  (if 500 < t.length then ["String must contain at most 500 character(s)"] else [])

/-- `z.string().min(1, "Please select an option")`. -/
def currentWorkflowIssues (s : String) : List String :=
  if s.length < 1 then ["Please select an option"] else []

/-- `z.string().min(1, "Please select urgency")`. -/
def urgencyIssues (s : String) : List String :=
  if s.length < 1 then ["Please select urgency"] else []

/-- The eight fields of the form, in schema declaration order. -/
inductive FieldId where
  | name | email | company | phone | companySize | automationGoal
  | currentWorkflow | urgency
deriving DecidableEq, Repr

/-- `FormData`: the eight string-valued fields of the form. -/
structure FormData where
  name : String
  email : String
  company : String
  phone : String
  companySize : String
  automationGoal : String
  currentWorkflow : String
  urgency : String
deriving DecidableEq, Repr

/-- Read one field of `FormData`. -/
def FormData.get (d : FormData) : FieldId → String
  | .name => d.name
  | .email => d.email
  | .company => d.company
  | .phone => d.phone
  | .companySize => d.companySize
  | .automationGoal => d.automationGoal
  | .currentWorkflow => d.currentWorkflow
  | .urgency => d.urgency

/-- Write one field of `FormData` (the spread `{ ...prev, [name]: value }`). -/
def FormData.set (d : FormData) (f : FieldId) (v : String) : FormData :=
  match f with
  | .name => { d with name := v }
  | .email => { d with email := v }
  | .company => { d with company := v }
  | .phone => { d with phone := v }
  | .companySize => { d with companySize := v }
  | .automationGoal => { d with automationGoal := v }
  | .currentWorkflow => { d with currentWorkflow := v }
  | .urgency => { d with urgency := v }

/-- The issues zod reports for one field of a `FormData`, in check order. -/
def fieldIssues (d : FormData) : FieldId → List String
  | .name => nameIssues d.name
  | .email => emailIssues d.email
  | .company => companyIssues d.company
  | .phone => phoneIssues d.phone
  | .companySize => companySizeIssues d.companySize
  | .automationGoal => automationGoalIssues d.automationGoal
  | .currentWorkflow => currentWorkflowIssues d.currentWorkflow
  | .urgency => urgencyIssues d.urgency

/-- Tag a field's issue messages with the field (the issue `path`). -/
def tag (f : FieldId) (msgs : List String) : List (FieldId × String) :=
  msgs.map (fun m => (f, m))

/-- All issues of `formSchema.safeParse(d)`, in field declaration order and,
within one field, in check order. Parsing succeeds iff this list is empty. -/
def formIssues (d : FormData) : List (FieldId × String) :=
  tag .name (nameIssues d.name) ++
  tag .email (emailIssues d.email) ++
  tag .company (companyIssues d.company) ++
  tag .phone (phoneIssues d.phone) ++
  tag .companySize (companySizeIssues d.companySize) ++
  tag .automationGoal (automationGoalIssues d.automationGoal) ++
  tag .currentWorkflow (currentWorkflowIssues d.currentWorkflow) ++
  tag .urgency (urgencyIssues d.urgency)

/-- `FormErrors`: at most one error message per field. -/
structure FormErrors where
  name : Option String
  email : Option String
  company : Option String
  phone : Option String
  companySize : Option String
  automationGoal : Option String
  currentWorkflow : Option String
  urgency : Option String
deriving DecidableEq, Repr

/-- The empty error map `{}`. -/
def emptyErrors : FormErrors :=
  ⟨none, none, none, none, none, none, none, none⟩

/-- Read one field's error. -/
def FormErrors.get (e : FormErrors) : FieldId → Option String
  | .name => e.name
  | .email => e.email
  | .company => e.company
  | .phone => e.phone
  | .companySize => e.companySize
  | .automationGoal => e.automationGoal
  | .currentWorkflow => e.currentWorkflow
  | .urgency => e.urgency

/-- Write one field's error (the spread `{ ...prev, [name]: v }`). -/
def FormErrors.set (e : FormErrors) (f : FieldId) (v : Option String) : FormErrors :=
  match f with
  | .name => { e with name := v }
  | .email => { e with email := v }
  | .company => { e with company := v }
  | .phone => { e with phone := v }
  | .companySize => { e with companySize := v }
  | .automationGoal => { e with automationGoal := v }
  | .currentWorkflow => { e with currentWorkflow := v }
  | .urgency => { e with urgency := v }

/-- One step of the `forEach` in `handleSubmit`:
`fieldErrors[err.path[0]] = err.message` (a later issue for the same field
overwrites an earlier one). -/
def applyIssue (e : FormErrors) (p : FieldId × String) : FormErrors :=
  e.set p.1 (some p.2)

/-- The `fieldErrors` object built by `handleSubmit` from the issue list. -/
def collectErrors (issues : List (FieldId × String)) : FormErrors :=
  issues.foldl applyIssue emptyErrors

/-- The last element of a message list, matching the overwrite order of
`collectErrors` for a single field's issues. -/
def lastMsg (msgs : List String) : Option String :=
  msgs.foldl (fun _ m => some m) none

/-- JavaScript truthiness of `errors[name]`: `undefined` and `""` are falsy. -/
def errTruthy : Option String → Bool
  | none => false
  | some m => !(m == "")

/-- The component's state: field values, error map, and the two flags. -/
structure ComponentState where
  formData : FormData
  errors : FormErrors
  isSubmitting : Bool
  isSubmitted : Bool
deriving DecidableEq, Repr

/-- The state created on mount: all fields empty, no errors, both flags false. -/
def initialState : ComponentState :=
  { formData := ⟨"", "", "", "", "", "", "", ""⟩
    errors := emptyErrors
    isSubmitting := false
    isSubmitted := false }

/-- `handleChange`: store the new value and, if the field's current error is
truthy, clear it (set it to `undefined`). Wired to every field except phone. -/
def handleChange (s : ComponentState) (f : FieldId) (v : String) : ComponentState :=
  { s with
    formData := s.formData.set f v
    errors := if errTruthy (s.errors.get f) then s.errors.set f none else s.errors }

/-- `formatPhoneNumber`: `value.replace(/[^\d+\-\s()]/g, "").slice(0, 20)`.
The characters kept are digits, `+`, `-`, JavaScript whitespace, `(`, `)`. -/
def isPhoneChar (c : Char) : Bool :=
  let n := c.toNat
  (48 ≤ n && n ≤ 57) || n = 43 || n = 45 || isJsWhitespace c || n = 40 || n = 41

/-- `formatPhoneNumber` itself: filter to the allowed characters, keep the
first 20. -/
def formatPhoneNumber (v : String) : String :=
  ⟨(v.data.filter isPhoneChar).take 20⟩

/-- `handlePhoneChange`: store the formatted value. Does not touch `errors`. -/
def handlePhoneChange (s : ComponentState) (v : String) : ComponentState :=
  { s with formData := { s.formData with phone := formatPhoneNumber v } }

/-- The state at the suspension point of a successful `handleSubmit`:
`setIsSubmitting(true); setErrors({})` have run and the 1200 ms timer is
pending. -/
def submitMid (s : ComponentState) : ComponentState :=
  { s with isSubmitting := true, errors := emptyErrors }

/-- The state after the synchronous failure path of `handleSubmit`:
`setIsSubmitting(true); setErrors({}); setErrors(fieldErrors);
setIsSubmitting(false); return` — net effect on the state. -/
def submitFailState (s : ComponentState) : ComponentState :=
  { s with errors := collectErrors (formIssues s.formData), isSubmitting := false }

/-- `handleSubmit` run to completion from state `s`, together with the
duration (ms) of the simulated network delay it awaited: validation failure
returns synchronously (0 ms); success suspends for 1200 ms, then clears
`isSubmitting` and sets `isSubmitted`. -/
def handleSubmit (s : ComponentState) : ComponentState × Nat :=
  if formIssues s.formData = [] then
    ({ submitMid s with isSubmitting := false, isSubmitted := true }, 1200)
  else
    (submitFailState s, 0)

/-- One UI event step. Events can only fire while the form is rendered
(`isSubmitted = false`); the submit button is disabled while
`isSubmitting`, and the timer completion (`complete`) fires only when a
submission is in flight. `handleChange` is wired to every field but phone;
the phone input is wired to `handlePhoneChange`. -/
inductive Step : ComponentState → ComponentState → Prop where
  | change (s : ComponentState) (f : FieldId) (v : String)
      (hf : f ≠ FieldId.phone) (hs : s.isSubmitted = false) :
      Step s (handleChange s f v)
  | phoneChange (s : ComponentState) (v : String) (hs : s.isSubmitted = false) :
      Step s (handlePhoneChange s v)
  | submitFail (s : ComponentState) (hs : s.isSubmitted = false)
      (hb : s.isSubmitting = false) (hv : formIssues s.formData ≠ []) :
      Step s (submitFailState s)
  | submitStart (s : ComponentState) (hs : s.isSubmitted = false)
      (hb : s.isSubmitting = false) (hv : formIssues s.formData = []) :
      Step s (submitMid s)
  | complete (s : ComponentState) (hb : s.isSubmitting = true) :
      Step s { s with isSubmitting := false, isSubmitted := true }

/-- States reachable from the mount state by UI events. -/
inductive Reachable : ComponentState → Prop where
  | init : Reachable initialState
  | step {s s' : ComponentState} : Reachable s → Step s s' → Reachable s'

/-- The `<option>` values and labels of the company-size select. -/
def companySizeOptions : List (String × String) :=
  [("", "Select company size"), ("1-10", "1–10 employees"),
   ("11-50", "11–50 employees"), ("51-200", "51–200 employees"),
   ("201-500", "201–500 employees"), ("500+", "500+ employees")]

/-- The `<option>` values and labels of the current-workflow select. -/
def workflowOptions : List (String × String) :=
  [("", "Select current approach"), ("manually", "Manually"),
   ("using-tools", "Using tools"), ("partially-automated", "Partially automated"),
   ("not-sure", "Not sure")]

/-- The `<option>` values and labels of the urgency select. -/
def urgencyOptions : List (String × String) :=
  [("", "Select urgency"), ("asap", "ASAP"), ("this-month", "This month"),
   ("exploring", "Exploring options")]

/-- The state invariant maintained by every UI event: the stored phone value
contains only allowed characters and at most 20 of them, the phone field
never holds an error, and the two submission flags are never both true. -/
def Inv (s : ComponentState) : Prop :=
  (∀ c ∈ s.formData.phone.data, isPhoneChar c = true) ∧
  s.formData.phone.length ≤ 20 ∧
  s.errors.get FieldId.phone = none ∧
  ¬(s.isSubmitting = true ∧ s.isSubmitted = true)

/-- The example valid submission from the specification. -/
def janeData : FormData :=
  ⟨"Jane Doe", "jane@acme.com", "Acme", "", "11-50", "Automate invoicing",
   "manually", "asap"⟩

/-- A 256-character email value: fails both the shape check and the
255-character bound. -/
def longEmail : String :=
  ⟨List.replicate 256 'a'⟩

/-- The editing state holding the specification's example valid submission. -/
def janeState : ComponentState :=
  { initialState with formData := janeData }

/-- An editing state in which the name field holds an error message. -/
def nameErrorState : ComponentState :=
  { initialState with
    errors := FormErrors.set emptyErrors FieldId.name (some "Name is required") }

/-- An editing state whose only invalid field is the overlong email. -/
def overlongEmailState : ComponentState :=
  { initialState with formData := { janeData with email := longEmail } }

/-- An editing state in which the phone field holds an error message. -/
def phoneErrorState : ComponentState :=
  { initialState with
    errors := FormErrors.set emptyErrors FieldId.phone
      (some "String must contain at most 20 character(s)") }

/-- The state after typing a long, partly invalid value into the phone field. -/
def junkPhoneState : ComponentState :=
  handlePhoneChange initialState "++abc(123) 456-7890 ext 1234567890"

/-- 100 letters followed by a space: 101 characters, 100 after trimming. -/
def padded101 : String :=
  ⟨List.replicate 100 'a' ++ [' ']⟩

/-- 300 letters followed by 300 spaces: 600 characters, 300 after trimming —
inside automationGoal's 500-character limit only after trimming. -/
def padded600 : String :=
  ⟨List.replicate 300 'a' ++ List.replicate 300 ' '⟩

/-- A valid 13-character address followed by 250 spaces: 263 characters raw,
13 after trimming — over email's 255-character limit only before trimming. -/
def paddedEmail : String :=
  ⟨"jane@acme.com".data ++ List.replicate 250 ' '⟩

/-! ### Projection lemmas for the handlers -/

theorem handleChange_formData (s : ComponentState) (f : FieldId) (v : String) :
    (handleChange s f v).formData = s.formData.set f v := by
  rw [handleChange]

theorem handleChange_errors (s : ComponentState) (f : FieldId) (v : String) :
    (handleChange s f v).errors =
      if errTruthy (s.errors.get f) then s.errors.set f none else s.errors := by
  rw [handleChange]

theorem handleChange_isSubmitting (s : ComponentState) (f : FieldId) (v : String) :
    (handleChange s f v).isSubmitting = s.isSubmitting := by
  rw [handleChange]

theorem handleChange_isSubmitted (s : ComponentState) (f : FieldId) (v : String) :
    (handleChange s f v).isSubmitted = s.isSubmitted := by
  rw [handleChange]

theorem handlePhoneChange_formData (s : ComponentState) (v : String) :
    (handlePhoneChange s v).formData = { s.formData with phone := formatPhoneNumber v } := by
  rw [handlePhoneChange]

theorem handlePhoneChange_errors (s : ComponentState) (v : String) :
    (handlePhoneChange s v).errors = s.errors := by
  rw [handlePhoneChange]

theorem handlePhoneChange_isSubmitting (s : ComponentState) (v : String) :
    (handlePhoneChange s v).isSubmitting = s.isSubmitting := by
  rw [handlePhoneChange]

theorem handlePhoneChange_isSubmitted (s : ComponentState) (v : String) :
    (handlePhoneChange s v).isSubmitted = s.isSubmitted := by
  rw [handlePhoneChange]

theorem submitMid_formData (s : ComponentState) : (submitMid s).formData = s.formData := by
  rw [submitMid]

theorem submitMid_errors (s : ComponentState) : (submitMid s).errors = emptyErrors := by
  rw [submitMid]

theorem submitMid_isSubmitting (s : ComponentState) : (submitMid s).isSubmitting = true := by
  rw [submitMid]

theorem submitMid_isSubmitted (s : ComponentState) :
    (submitMid s).isSubmitted = s.isSubmitted := by
  rw [submitMid]

theorem submitFailState_formData (s : ComponentState) :
    (submitFailState s).formData = s.formData := by
  rw [submitFailState]

theorem submitFailState_errors (s : ComponentState) :
    (submitFailState s).errors = collectErrors (formIssues s.formData) := by
  rw [submitFailState]

theorem submitFailState_isSubmitting (s : ComponentState) :
    (submitFailState s).isSubmitting = false := by
  rw [submitFailState]

theorem submitFailState_isSubmitted (s : ComponentState) :
    (submitFailState s).isSubmitted = s.isSubmitted := by
  rw [submitFailState]

theorem handleSubmit_of_valid {s : ComponentState} (h : formIssues s.formData = []) :
    handleSubmit s = ({ submitMid s with isSubmitting := false, isSubmitted := true }, 1200) := by
  rw [handleSubmit, if_pos h]

theorem handleSubmit_of_invalid {s : ComponentState} (h : formIssues s.formData ≠ []) :
    handleSubmit s = (submitFailState s, 0) := by
  rw [handleSubmit, if_neg h]

/-! ### Lemmas about trimming -/

theorem trimList_sublist (l : List Char) : (trimList l).Sublist l := by
  have h1 : (l.dropWhile isJsWhitespace).Sublist l := List.dropWhile_sublist _
  have h2 : ((l.dropWhile isJsWhitespace).reverse.dropWhile isJsWhitespace).Sublist
      (l.dropWhile isJsWhitespace).reverse := List.dropWhile_sublist _
  have h3 := h2.reverse
  rw [List.reverse_reverse] at h3
  exact h3.trans h1

theorem trimList_length_le (l : List Char) : (trimList l).length ≤ l.length :=
  (trimList_sublist l).length_le

theorem mem_of_mem_trimList {c : Char} {l : List Char} (h : c ∈ trimList l) : c ∈ l :=
  (trimList_sublist l).subset h

theorem jsTrim_length_le (s : String) : (jsTrim s).length ≤ s.length :=
  trimList_length_le s.data

theorem trimList_eq_nil (l : List Char) (h : ∀ c ∈ l, isJsWhitespace c = true) :
    trimList l = [] := by
  unfold trimList
  rw [List.dropWhile_eq_nil_iff.mpr h]
  rfl

theorem dropWhile_eq_self_of_head (p : Char → Bool) (l : List Char)
    (h : ∀ c, l.head? = some c → p c = false) : l.dropWhile p = l := by
  cases l with
  | nil => rfl
  | cons c t => simp [List.dropWhile_cons, h c rfl]

theorem trimList_eq_self (l : List Char)
    (hh : ∀ c, l.head? = some c → isJsWhitespace c = false)
    (hl : ∀ c, l.getLast? = some c → isJsWhitespace c = false) :
    trimList l = l := by
  unfold trimList
  rw [dropWhile_eq_self_of_head _ l hh,
    dropWhile_eq_self_of_head _ l.reverse
      (fun c hc => hl c (by rwa [List.head?_reverse] at hc)),
    List.reverse_reverse]

/-! ### Character-class lemmas -/

theorem isLocalChar_of_isLocalEndChar {c : Char} (h : isLocalEndChar c = true) :
    isLocalChar c = true := by
  simp only [isLocalEndChar, Bool.or_eq_true] at h
  simp only [isLocalChar, Bool.or_eq_true]
  tauto

theorem not_ws_of_isLocalChar {c : Char} (h : isLocalChar c = true) :
    isJsWhitespace c = false := by
  rw [← Bool.not_eq_true]
  intro hws
  simp only [isLocalChar, isAlnum, Bool.or_eq_true, Bool.and_eq_true,
    decide_eq_true_eq] at h
  simp only [isJsWhitespace, Bool.or_eq_true, Bool.and_eq_true,
    decide_eq_true_eq] at hws
  omega

theorem not_ws_of_isLetterChar {c : Char} (h : isLetterChar c = true) :
    isJsWhitespace c = false := by
  rw [← Bool.not_eq_true]
  intro hws
  simp only [isLetterChar, Bool.or_eq_true, Bool.and_eq_true,
    decide_eq_true_eq] at h
  simp only [isJsWhitespace, Bool.or_eq_true, Bool.and_eq_true,
    decide_eq_true_eq] at hws
  omega

/-! ### Lemmas about `splitOnChar` -/

theorem splitOnChar_ne_nil (sep : Char) (l : List Char) : splitOnChar sep l ≠ [] := by
  cases l with
  | nil => simp [splitOnChar]
  | cons c rest =>
    cases h : splitOnChar sep rest with
    | nil => simp [splitOnChar, h]
    | cons a t =>
      simp only [splitOnChar, h]
      split <;> simp

theorem splitOnChar_single {sep : Char} :
    ∀ {l x : List Char}, splitOnChar sep l = [x] → l = x := by
  intro l
  induction l with
  | nil =>
    intro x h
    simp only [splitOnChar, List.cons.injEq] at h
    exact h.1
  | cons c rest ih =>
    intro x h
    cases hr : splitOnChar sep rest with
    | nil => exact absurd hr (splitOnChar_ne_nil sep rest)
    | cons a t =>
      simp only [splitOnChar, hr] at h
      by_cases hc : c = sep
      · rw [if_pos hc] at h
        simp at h
      · rw [if_neg hc] at h
        simp only [List.cons.injEq] at h
        obtain ⟨hx, ht⟩ := h
        subst ht
        have : rest = a := ih (by rw [hr])
        rw [← hx, this]

theorem splitOnChar_of_not_mem {sep : Char} {l : List Char} (h : sep ∉ l) :
    splitOnChar sep l = [l] := by
  induction l with
  | nil => rfl
  | cons c rest ih =>
    have hc : c ≠ sep := fun hc => h (hc ▸ List.mem_cons_self c rest)
    have hrest : sep ∉ rest := fun hm => h (List.mem_cons_of_mem c hm)
    simp only [splitOnChar, ih hrest, if_neg hc]

theorem splitOnChar_pair {sep : Char} :
    ∀ {l a b : List Char}, splitOnChar sep l = [a, b] → l = a ++ sep :: b := by
  intro l
  induction l with
  | nil =>
    intro a b h
    simp [splitOnChar] at h
  | cons c rest ih =>
    intro a b h
    cases hr : splitOnChar sep rest with
    | nil => exact absurd hr (splitOnChar_ne_nil sep rest)
    | cons x t =>
      simp only [splitOnChar, hr] at h
      by_cases hc : c = sep
      · rw [if_pos hc] at h
        simp only [List.cons.injEq] at h
        obtain ⟨ha, hx, ht⟩ := h
        subst ht
        have : rest = b := splitOnChar_single (by rw [hr, hx])
        rw [← ha, this, hc]
        rfl
      · rw [if_neg hc] at h
        simp only [List.cons.injEq] at h
        obtain ⟨ha, ht⟩ := h
        subst ht
        have : rest = x ++ sep :: b := ih (by rw [hr])
        rw [← ha, this]
        rfl

theorem splitOnChar_getLastD_suffix (sep : Char) (l : List Char) :
    ∃ pre, pre ++ (splitOnChar sep l).getLastD [] = l := by
  induction l with
  | nil => exact ⟨[], rfl⟩
  | cons c rest ih =>
    obtain ⟨pre, hpre⟩ := ih
    cases hr : splitOnChar sep rest with
    | nil => exact absurd hr (splitOnChar_ne_nil sep rest)
    | cons a t =>
      simp only [splitOnChar, hr]
      rw [hr] at hpre
      by_cases hc : c = sep
      · rw [if_pos hc]
        refine ⟨c :: pre, ?_⟩
        simp only [List.getLastD_cons] at hpre ⊢
        rw [List.cons_append, hpre]
      · rw [if_neg hc]
        cases t with
        | nil =>
          have : rest = a := splitOnChar_single (by rw [hr])
          exact ⟨[], by simp [this]⟩
        | cons b t2 =>
          refine ⟨c :: pre, ?_⟩
          simp only [List.getLastD_cons] at hpre ⊢
          rw [List.cons_append, hpre]

/-! ### Lemmas about the email check -/

theorem localOk_ne_nil {l : List Char} (h : localOk l = true) : l ≠ [] := by
  intro hnil
  rw [hnil] at h
  simp [localOk] at h

theorem localOk_all {l : List Char} (h : localOk l = true) :
    ∀ c ∈ l, isLocalChar c = true := by
  have hne : l ≠ [] := localOk_ne_nil h
  cases hl : l with
  | nil => exact absurd hl hne
  | cons a t =>
    rw [hl] at h
    simp only [localOk, Bool.and_eq_true] at h
    obtain ⟨⟨⟨-, -⟩, hall⟩, hlast⟩ := h
    intro c hc
    rw [← hl] at hc
    have hsplit := List.dropLast_append_getLast hne
    rw [← hsplit] at hc
    rcases List.mem_append.mp hc with hmem | hmem
    · rw [hl] at hmem
      exact List.all_eq_true.mp hall c hmem
    · have hceq : c = l.getLast hne := by simpa using hmem
      have hgl : l.getLastD ' ' = l.getLast hne := by
        rw [List.getLastD_eq_getLast?, List.getLast?_eq_getLast_of_ne_nil hne]
        rfl
      have h1 : isLocalEndChar (l.getLast hne) = true := by
        rw [← hgl, hl]
        exact hlast
      rw [hceq]
      exact isLocalChar_of_isLocalEndChar h1

theorem isDomain_last {d : List Char} (h : isDomain d = true) :
    ∃ c, d.getLast? = some c ∧ isLetterChar c = true := by
  simp only [isDomain, Bool.and_eq_true, decide_eq_true_eq] at h
  obtain ⟨⟨-, -⟩, htld⟩ := h
  simp only [isTld, Bool.and_eq_true, decide_eq_true_eq] at htld
  obtain ⟨hlen, hletters⟩ := htld
  set last := (splitOnChar '.' d).getLastD [] with hlast
  have hne : last ≠ [] := by
    intro hnil
    rw [hnil] at hlen
    simp at hlen
  obtain ⟨pre, hpre⟩ := splitOnChar_getLastD_suffix '.' d
  rw [← hlast] at hpre
  refine ⟨last.getLast hne, ?_, ?_⟩
  · rw [← hpre, List.getLast?_append_of_ne_nil pre hne,
      List.getLast?_eq_getLast_of_ne_nil hne]
  · exact List.all_eq_true.mp hletters _ (List.getLast_mem hne)

theorem zodEmailValid_decomp {s : String} (h : zodEmailValid s = true) :
    ∃ l d, s.data = l ++ '@' :: d ∧ localOk l = true ∧ isDomain d = true := by
  unfold zodEmailValid at h
  cases hsp : splitOnChar '@' s.data with
  | nil => exact absurd hsp (splitOnChar_ne_nil '@' s.data)
  | cons a t =>
    rw [hsp] at h
    cases t with
    | nil => simp at h
    | cons b t2 =>
      cases t2 with
      | nil =>
        simp only [Bool.and_eq_true] at h
        exact ⟨a, b, splitOnChar_pair hsp, h.1, h.2⟩
      | cons x t3 => simp at h

theorem zodEmailValid_of_no_at {s : String} (h : '@' ∉ s.data) :
    zodEmailValid s = false := by
  unfold zodEmailValid
  rw [splitOnChar_of_not_mem h]

theorem jsTrim_of_emailValid {s : String} (h : zodEmailValid s = true) :
    jsTrim s = s := by
  obtain ⟨l, d, hdecomp, hlocal, hdom⟩ := zodEmailValid_decomp h
  have hlne : l ≠ [] := localOk_ne_nil hlocal
  have hhead : ∀ c, s.data.head? = some c → isJsWhitespace c = false := by
    intro c hc
    cases hl : l with
    | nil => exact absurd hl hlne
    | cons a t =>
      rw [hdecomp, hl] at hc
      simp only [List.cons_append, List.head?_cons, Option.some.injEq] at hc
      rw [← hc]
      exact not_ws_of_isLocalChar (localOk_all hlocal a (hl ▸ List.mem_cons_self a t))
  have hlast : ∀ c, s.data.getLast? = some c → isJsWhitespace c = false := by
    intro c hc
    obtain ⟨cl, hcl, hletter⟩ := isDomain_last hdom
    have hdne : d ≠ [] := by
      intro hnil
      rw [hnil] at hcl
      simp at hcl
    rw [hdecomp, List.getLast?_append_of_ne_nil l (by simp)] at hc
    have : ('@' :: d).getLast? = d.getLast? := by
      cases hd : d with
      | nil => exact absurd hd hdne
      | cons x t => exact List.getLast?_cons_cons
    rw [this, hcl] at hc
    cases hc
    exact not_ws_of_isLetterChar hletter
  show String.mk (trimList s.data) = s
  rw [trimList_eq_self s.data hhead hlast]

/-! ### Lemmas about the error map -/

theorem errors_get_set (e : FormErrors) (g f : FieldId) (v : Option String) :
    (e.set g v).get f = if f = g then v else e.get f := by
  cases f <;> cases g <;> simp [FormErrors.set, FormErrors.get]

theorem formData_get_set (d : FormData) (g f : FieldId) (v : String) :
    (d.set g v).get f = if f = g then v else d.get f := by
  cases f <;> cases g <;> simp [FormData.set, FormData.get]

theorem FormData.phone_set_ne (d : FormData) (g : FieldId) (v : String)
    (hg : g ≠ FieldId.phone) : (d.set g v).phone = d.phone := by
  have h := formData_get_set d g FieldId.phone v
  rw [if_neg (fun h' => hg h'.symm)] at h
  exact h

theorem foldl_tag (g : FieldId) (msgs : List String) :
    ∀ (e : FormErrors) (f : FieldId),
      ((tag g msgs).foldl applyIssue e).get f =
        if f = g then msgs.foldl (fun _ m => some m) (e.get f) else e.get f := by
  induction msgs with
  | nil =>
    intro e f
    simp only [tag, List.map_nil, List.foldl_nil]
    split <;> rfl
  | cons m ms ih =>
    intro e f
    simp only [tag, List.map_cons, List.foldl_cons]
    have h2 := ih (applyIssue e (g, m)) f
    simp only [tag] at h2
    rw [h2]
    by_cases hfg : f = g
    · rw [if_pos hfg, if_pos hfg]
      have : (applyIssue e (g, m)).get f = some m := by
        simp [applyIssue, errors_get_set, hfg]
      rw [this]
    · rw [if_neg hfg, if_neg hfg]
      have : (applyIssue e (g, m)).get f = e.get f := by
        simp [applyIssue, errors_get_set, hfg]
      rw [this]

theorem collectErrors_get (d : FormData) (f : FieldId) :
    (collectErrors (formIssues d)).get f = lastMsg (fieldIssues d f) := by
  cases f <;>
    · simp only [collectErrors, formIssues, List.foldl_append, foldl_tag]
      simp [lastMsg, fieldIssues, emptyErrors, FormErrors.get]

theorem formIssues_eq_nil_iff (d : FormData) :
    formIssues d = [] ↔ ∀ f, fieldIssues d f = [] := by
  simp only [formIssues, tag, List.append_eq_nil, List.map_eq_nil_iff]
  constructor
  · rintro ⟨⟨⟨⟨⟨⟨⟨h1, h2⟩, h3⟩, h4⟩, h5⟩, h6⟩, h7⟩, h8⟩ f
    cases f <;> simp only [fieldIssues] <;> assumption
  · intro h
    have h1 := h .name
    have h2 := h .email
    have h3 := h .company
    have h4 := h .phone
    have h5 := h .companySize
    have h6 := h .automationGoal
    have h7 := h .currentWorkflow
    have h8 := h .urgency
    simp only [fieldIssues] at h1 h2 h3 h4 h5 h6 h7 h8
    exact ⟨⟨⟨⟨⟨⟨⟨h1, h2⟩, h3⟩, h4⟩, h5⟩, h6⟩, h7⟩, h8⟩

/-! ### Lemmas about the phone handler and the state invariant -/

theorem formatPhoneNumber_length_le (v : String) : (formatPhoneNumber v).length ≤ 20 := by
  show ((v.data.filter isPhoneChar).take 20).length ≤ 20
  rw [List.length_take]
  exact min_le_left _ _

theorem formatPhoneNumber_chars (v : String) :
    ∀ c ∈ (formatPhoneNumber v).data, isPhoneChar c = true := by
  intro c hc
  have hc' : c ∈ v.data.filter isPhoneChar :=
    (List.take_sublist 20 _).subset hc
  exact List.of_mem_filter hc'

theorem formatPhoneNumber_sublist (v : String) :
    (formatPhoneNumber v).data.Sublist v.data :=
  (List.take_sublist 20 _).trans (List.filter_sublist v.data)

theorem phoneIssues_of_le (s : String) (h : s.length ≤ 20) : phoneIssues s = [] := by
  have hle : (jsTrim s).length ≤ s.length := jsTrim_length_le s
  simp [phoneIssues, Nat.not_lt.mpr (hle.trans h)]

theorem step_inv {s s' : ComponentState} (hstep : Step s s') (ih : Inv s) : Inv s' := by
  obtain ⟨ih1, ih2, ih3, ih4⟩ := ih
  cases hstep with
  | change f v hf hs =>
    have hphone : (handleChange s f v).formData.phone = s.formData.phone := by
      rw [handleChange_formData]
      exact FormData.phone_set_ne s.formData f v hf
    refine ⟨?_, ?_, ?_, ?_⟩
    · intro c hc
      rw [hphone] at hc
      exact ih1 c hc
    · rw [hphone]
      exact ih2
    · rw [handleChange_errors]
      split
      · rw [errors_get_set]
        split
        · rfl
        · exact ih3
      · exact ih3
    · rw [handleChange_isSubmitting, handleChange_isSubmitted]
      exact ih4
  | phoneChange v hs =>
    refine ⟨?_, ?_, ?_, ?_⟩
    · intro c hc
      rw [handlePhoneChange_formData] at hc
      exact formatPhoneNumber_chars v c hc
    · rw [handlePhoneChange_formData]
      exact formatPhoneNumber_length_le v
    · rw [handlePhoneChange_errors]
      exact ih3
    · rw [handlePhoneChange_isSubmitting, handlePhoneChange_isSubmitted]
      exact ih4
  | submitFail hs hb hv =>
    refine ⟨?_, ?_, ?_, ?_⟩
    · intro c hc
      rw [submitFailState_formData] at hc
      exact ih1 c hc
    · rw [submitFailState_formData]
      exact ih2
    · rw [submitFailState_errors, collectErrors_get]
      simp only [fieldIssues]
      rw [phoneIssues_of_le _ ih2]
      rfl
    · rw [submitFailState_isSubmitting]
      simp
  | submitStart hs hb hv =>
    refine ⟨?_, ?_, ?_, ?_⟩
    · intro c hc
      rw [submitMid_formData] at hc
      exact ih1 c hc
    · rw [submitMid_formData]
      exact ih2
    · rw [submitMid_errors]
      rfl
    · rw [submitMid_isSubmitted, hs]
      simp
  | complete hb =>
    exact ⟨ih1, ih2, ih3, by simp⟩

theorem reachable_inv {s : ComponentState} (h : Reachable s) : Inv s := by
  induction h with
  | init =>
    refine ⟨?_, ?_, rfl, ?_⟩
    · intro c hc
      simp [initialState] at hc
    · decide
    · simp [initialState]
  | step hr hstep ih => exact step_inv hstep ih

theorem step_submitted_mono {s s' : ComponentState} (h : Step s s')
    (hsub : s.isSubmitted = true) : s'.isSubmitted = true := by
  cases h with
  | change f v hf hs => rw [handleChange_isSubmitted]; exact hsub
  | phoneChange v hs => rw [handlePhoneChange_isSubmitted]; exact hsub
  | submitFail hs hb hv => rw [submitFailState_isSubmitted]; exact hsub
  | submitStart hs hb hv => rw [submitMid_isSubmitted]; exact hsub
  | complete hb => rfl

/-! ### Remaining helper lemmas -/

theorem string_eq_empty_of_length_lt_one {s : String} (h : s.length < 1) : s = "" := by
  have h0 : s.data.length = 0 := by
    have h' : s.data.length < 1 := h
    omega
  exact String.ext (List.length_eq_zero.mp h0)

theorem handleSubmit_valid_state {s : ComponentState} (h : formIssues s.formData = []) :
    (handleSubmit s).1.errors = emptyErrors ∧
    (handleSubmit s).1.isSubmitting = false ∧
    (handleSubmit s).1.isSubmitted = true ∧
    (handleSubmit s).2 = 1200 ∧
    (handleSubmit s).1.formData = s.formData := by
  rw [handleSubmit_of_valid h]
  exact ⟨submitMid_errors s, rfl, rfl, rfl, submitMid_formData s⟩

theorem handleSubmit_fail_state {s : ComponentState} (h : formIssues s.formData ≠ []) :
    (handleSubmit s).1.errors = collectErrors (formIssues s.formData) ∧
    (handleSubmit s).1.isSubmitting = false ∧
    (handleSubmit s).1.isSubmitted = s.isSubmitted ∧
    (handleSubmit s).2 = 0 := by
  rw [handleSubmit_of_invalid h]
  exact ⟨submitFailState_errors s, submitFailState_isSubmitting s,
    submitFailState_isSubmitted s, rfl⟩

theorem fieldIssues_empty_required (d : FormData) (f : FieldId)
    (hf : f ≠ FieldId.phone) (hempty : d.get f = "") :
    ∃ m, fieldIssues d f = [m] ∧ m ≠ "" := by
  cases f with
  | phone => exact absurd rfl hf
  | name =>
    refine ⟨"Name is required", ?_, by decide⟩
    have h : d.name = "" := hempty
    simp only [fieldIssues]
    rw [h]
    decide
  | email =>
    refine ⟨"Please enter a valid email", ?_, by decide⟩
    have h : d.email = "" := hempty
    simp only [fieldIssues]
    rw [h]
    decide
  | company =>
    refine ⟨"Company name is required", ?_, by decide⟩
    have h : d.company = "" := hempty
    simp only [fieldIssues]
    rw [h]
    decide
  | companySize =>
    refine ⟨"Please select company size", ?_, by decide⟩
    have h : d.companySize = "" := hempty
    simp only [fieldIssues]
    rw [h]
    decide
  | automationGoal =>
    refine ⟨"Please describe what you want to automate", ?_, by decide⟩
    have h : d.automationGoal = "" := hempty
    simp only [fieldIssues]
    rw [h]
    decide
  | currentWorkflow =>
    refine ⟨"Please select an option", ?_, by decide⟩
    have h : d.currentWorkflow = "" := hempty
    simp only [fieldIssues]
    rw [h]
    decide
  | urgency =>
    refine ⟨"Please select urgency", ?_, by decide⟩
    have h : d.urgency = "" := hempty
    simp only [fieldIssues]
    rw [h]
    decide

/-! ### The claims -/

/-- C1 (counterexample): the claim says the submit-time validation accepts
companySize, currentWorkflow and urgency only if they are enumerated option
values and that any other non-empty string fails; but the schema only checks
non-emptiness, so "x" — not an option value of any of the three selects —
passes all three rules. -/
theorem select_rule_accepts_non_option :
    companySizeIssues "x" = [] ∧ "x" ∉ companySizeOptions.map Prod.fst ∧
    currentWorkflowIssues "x" = [] ∧ "x" ∉ workflowOptions.map Prod.fst ∧
    urgencyIssues "x" = [] ∧ "x" ∉ urgencyOptions.map Prod.fst := by
  decide

/-- C1 (amended): the submit-time validation of companySize, currentWorkflow
and urgency accepts exactly the non-empty strings; the enumerations are
enforced only by the select options in the markup, not by the schema. -/
theorem select_rules_accept_iff_nonempty (s : String) :
    (companySizeIssues s = [] ↔ s ≠ "") ∧
    (currentWorkflowIssues s = [] ↔ s ≠ "") ∧
    (urgencyIssues s = [] ↔ s ≠ "") := by
  have key : ∀ m : String,
      ((if s.length < 1 then [m] else []) = ([] : List String)) ↔ s ≠ "" := by
    intro m
    by_cases h : s.length < 1
    · rw [if_pos h]
      exact iff_of_false (by simp) (by simp [string_eq_empty_of_length_lt_one h])
    · rw [if_neg h]
      refine iff_of_true rfl ?_
      intro he
      subst he
      exact h (by decide)
  simp only [companySizeIssues, currentWorkflowIssues, urgencyIssues]
  exact ⟨key _, key _, key _⟩

/-- C1 witness: each of the three iffs, instantiated at an enumerated value. -/
theorem select_rules_accept_iff_nonempty_witness :
    (companySizeIssues "11-50" = [] ↔ "11-50" ≠ "") ∧
    (currentWorkflowIssues "11-50" = [] ↔ "11-50" ≠ "") ∧
    (urgencyIssues "11-50" = [] ↔ "11-50" ≠ "") :=
  select_rules_accept_iff_nonempty "11-50"

set_option maxRecDepth 4000 in
/-- C2 (counterexample): for the 256-character shapeless email, the issue list
holds the email-shape message first and the length message second, and the
recorded error is the length message — not the shape message the claim (first
failing rule per field) predicts. -/
theorem overlong_email_records_length_message :
    emailIssues longEmail =
      ["Please enter a valid email",
       "String must contain at most 255 character(s)"] ∧
    (handleSubmit overlongEmailState).1.errors.get FieldId.email =
      some "String must contain at most 255 character(s)" := by
  decide

/-- C2 (amended): when validation fails, the error recorded for each field is
the message of the LAST failing rule for that field (the forEach overwrites
earlier issues of the same field), not the first. -/
theorem failed_submit_records_last_issue (s : ComponentState)
    (h : formIssues s.formData ≠ []) (f : FieldId) :
    (handleSubmit s).1.errors.get f = lastMsg (fieldIssues s.formData f) := by
  rw [(handleSubmit_fail_state h).1, collectErrors_get]

/-- C2 witness: the amended statement at the mount state and the name field. -/
theorem failed_submit_records_last_issue_witness :
    (handleSubmit initialState).1.errors.get FieldId.name =
      lastMsg (fieldIssues initialState.formData FieldId.name) :=
  failed_submit_records_last_issue initialState (by decide) FieldId.name

/-- C3: if some required fields are empty and every other field is valid,
submitting records a non-empty message for exactly the empty required fields,
the phone field gets no error, the state stays unsubmitted, the submitting
flag ends false, and no delay is awaited. -/
theorem submit_empty_required_fields_spec (s : ComponentState)
    (hsub : s.isSubmitted = false)
    (hsome : ∃ f, f ≠ FieldId.phone ∧ s.formData.get f = "")
    (hvalid : ∀ f, f ≠ FieldId.phone → s.formData.get f ≠ "" →
      fieldIssues s.formData f = [])
    (hphone : fieldIssues s.formData FieldId.phone = []) :
    (∀ f, f ≠ FieldId.phone →
      (s.formData.get f = "" →
        ∃ m, (handleSubmit s).1.errors.get f = some m ∧ m ≠ "") ∧
      (s.formData.get f ≠ "" → (handleSubmit s).1.errors.get f = none)) ∧
    (handleSubmit s).1.errors.get FieldId.phone = none ∧
    (handleSubmit s).1.isSubmitted = false ∧
    (handleSubmit s).1.isSubmitting = false ∧
    (handleSubmit s).2 = 0 := by
  obtain ⟨f₀, hf₀, he₀⟩ := hsome
  have hinv : formIssues s.formData ≠ [] := by
    intro hnil
    obtain ⟨m, hm, -⟩ := fieldIssues_empty_required s.formData f₀ hf₀ he₀
    rw [(formIssues_eq_nil_iff s.formData).mp hnil f₀] at hm
    simp at hm
  obtain ⟨herr, hsubmitting, hsubmitted, hdelay⟩ := handleSubmit_fail_state hinv
  refine ⟨?_, ?_, ?_, hsubmitting, hdelay⟩
  · intro f hf
    constructor
    · intro hempty
      obtain ⟨m, hm, hmne⟩ := fieldIssues_empty_required s.formData f hf hempty
      refine ⟨m, ?_, hmne⟩
      rw [herr, collectErrors_get, hm]
      rfl
    · intro hne
      rw [herr, collectErrors_get, hvalid f hf hne]
      rfl
  · rw [herr, collectErrors_get, hphone]
    rfl
  · rw [hsubmitted]
    exact hsub

/-- C3 witness: at the mount state (every field empty), the name field gets a
non-empty error and no delay is awaited. -/
theorem submit_empty_required_fields_spec_witness :
    (∃ m, (handleSubmit initialState).1.errors.get FieldId.name = some m ∧ m ≠ "") ∧
    (handleSubmit initialState).2 = 0 := by
  have h := submit_empty_required_fields_spec initialState rfl
    ⟨FieldId.name, by decide, rfl⟩
    (fun f hf hne => absurd (by cases f <;> rfl) hne)
    (by decide)
  exact ⟨(h.1 FieldId.name (by decide)).1 rfl, h.2.2.2.2⟩

/-- C4: on a valid form, handleSubmit first enters the submitting state
(flag set, errors cleared, not yet submitted), awaits the fixed 1200 ms
delay, and ends with submitting cleared, submitted set, and no errors. -/
theorem submit_valid_spec (s : ComponentState)
    (hsub : s.isSubmitted = false)
    (hvalid : formIssues s.formData = []) :
    (submitMid s).isSubmitting = true ∧
    (submitMid s).isSubmitted = false ∧
    (submitMid s).errors = emptyErrors ∧
    (handleSubmit s).2 = 1200 ∧
    (handleSubmit s).1.isSubmitting = false ∧
    (handleSubmit s).1.isSubmitted = true ∧
    (handleSubmit s).1.errors = emptyErrors := by
  obtain ⟨herr, hsubmitting, hsubmitted, hdelay, -⟩ := handleSubmit_valid_state hvalid
  refine ⟨submitMid_isSubmitting s, ?_, submitMid_errors s, hdelay, hsubmitting,
    hsubmitted, herr⟩
  rw [submitMid_isSubmitted]
  exact hsub

/-- C4 witness: the specification's example input submits successfully. -/
theorem submit_valid_spec_witness :
    (handleSubmit janeState).2 = 1200 ∧
    (handleSubmit janeState).1.isSubmitted = true ∧
    (handleSubmit janeState).1.errors = emptyErrors := by
  obtain ⟨-, -, -, h4, -, h6, h7⟩ := submit_valid_spec janeState rfl (by decide)
  exact ⟨h4, h6, h7⟩

/-- C5: in every reachable state the submitting and submitted flags are never
both true, and no step ever takes the submitted flag from true back to
false. -/
theorem flags_exclusive_and_terminal (s : ComponentState) (h : Reachable s) :
    ¬(s.isSubmitting = true ∧ s.isSubmitted = true) ∧
    ∀ s', Step s s' → s.isSubmitted = true → s'.isSubmitted = true :=
  ⟨(reachable_inv h).2.2.2, fun _ h' hsub => step_submitted_mono h' hsub⟩

/-- C5 witness: the exclusivity at the mount state. -/
theorem flags_exclusive_and_terminal_witness :
    ¬(initialState.isSubmitting = true ∧ initialState.isSubmitted = true) :=
  (flags_exclusive_and_terminal initialState Reachable.init).1

/-- C6: the phone formatter returns a subsequence of its input made only of
allowed characters (digits, `+`, `-`, whitespace, parentheses) and never
longer than 20 characters, whatever the input. -/
theorem formatPhoneNumber_spec (v : String) :
    (formatPhoneNumber v).length ≤ 20 ∧
    (∀ c ∈ (formatPhoneNumber v).data, isPhoneChar c = true) ∧
    (formatPhoneNumber v).data.Sublist v.data :=
  ⟨formatPhoneNumber_length_le v, formatPhoneNumber_chars v,
   formatPhoneNumber_sublist v⟩

/-- C6 witness: the formatter at a 30-character mixed input. -/
theorem formatPhoneNumber_spec_witness :
    (formatPhoneNumber "+1 (555) 123-4567 ext 99999999").length ≤ 20 ∧
    (∀ c ∈ (formatPhoneNumber "+1 (555) 123-4567 ext 99999999").data,
      isPhoneChar c = true) ∧
    (formatPhoneNumber "+1 (555) 123-4567 ext 99999999").data.Sublist
      "+1 (555) 123-4567 ext 99999999".data :=
  formatPhoneNumber_spec "+1 (555) 123-4567 ext 99999999"

/-- C7 (counterexample): the claim says a change event on a field holding an
error clears that error for every field including phone; but the phone input
is wired to handlePhoneChange, which never touches the error map, so a phone
error survives a phone change event. -/
theorem phone_change_keeps_phone_error :
    phoneErrorState.errors.get FieldId.phone ≠ none ∧
    (handlePhoneChange phoneErrorState "123").formData.phone = "123" ∧
    (handlePhoneChange phoneErrorState "123").errors.get FieldId.phone =
      some "String must contain at most 20 character(s)" := by
  decide

/-- C7 (amended): for the seven fields wired to handleChange, a change event
stores the value, clears that field's (truthy) error and leaves every other
field's value and error unchanged; a phone change event stores the formatted
value, leaves the other values unchanged — and leaves the whole error map
unchanged, so an existing phone error is NOT cleared. -/
theorem change_event_frame_spec (s : ComponentState) (f : FieldId) (v w : String)
    (m : String) (hm : s.errors.get f = some m) (hmne : m ≠ "") :
    ((handleChange s f v).formData.get f = v ∧
     (handleChange s f v).errors.get f = none ∧
     (∀ g, g ≠ f → (handleChange s f v).formData.get g = s.formData.get g ∧
        (handleChange s f v).errors.get g = s.errors.get g)) ∧
    ((handlePhoneChange s w).formData.phone = formatPhoneNumber w ∧
     (handlePhoneChange s w).errors = s.errors ∧
     (∀ g, g ≠ FieldId.phone →
        (handlePhoneChange s w).formData.get g = s.formData.get g)) := by
  have ht : errTruthy (s.errors.get f) = true := by
    rw [hm]
    simp [errTruthy, hmne]
  refine ⟨⟨?_, ?_, ?_⟩, ?_, handlePhoneChange_errors s w, ?_⟩
  · rw [handleChange_formData, formData_get_set, if_pos rfl]
  · rw [handleChange_errors, if_pos ht, errors_get_set, if_pos rfl]
  · intro g hg
    constructor
    · rw [handleChange_formData, formData_get_set, if_neg hg]
    · rw [handleChange_errors, if_pos ht, errors_get_set, if_neg hg]
  · rw [handlePhoneChange_formData]
  · intro g hg
    rw [handlePhoneChange_formData]
    cases g <;> first | rfl | exact absurd rfl hg

/-- C7 witness: the amended statement at a state whose name field holds an
error, editing name. -/
theorem change_event_frame_spec_witness :
    (handleChange nameErrorState FieldId.name "J").formData.get FieldId.name = "J" ∧
    (handleChange nameErrorState FieldId.name "J").errors.get FieldId.name = none ∧
    (handlePhoneChange nameErrorState "5").errors = nameErrorState.errors := by
  have h := change_event_frame_spec nameErrorState FieldId.name "J" "5"
    "Name is required" (by decide) (by decide)
  exact ⟨h.1.1, h.1.2.1, h.2.2.1⟩

/-- C8: the email rule rejects every value without the `@domain` shape (a
value with no `@` at all never passes the shape check, the empty string
included), and accepts every well-formed address — one matching zod's email
regex — of at most 255 characters. -/
theorem email_rule_spec (s t : String) :
    ('@' ∉ s.data → zodEmailValid (jsTrim s) = false) ∧
    (zodEmailValid (jsTrim s) = false →
      "Please enter a valid email" ∈ emailIssues s) ∧
    (zodEmailValid t = true → t.length ≤ 255 → emailIssues t = []) ∧
    emailIssues "" = ["Please enter a valid email"] := by
  refine ⟨?_, ?_, ?_, by decide⟩
  · intro h
    apply zodEmailValid_of_no_at
    intro hmem
    exact h (mem_of_mem_trimList hmem)
  · intro h
    simp [emailIssues, h]
  · intro hv hlen
    have hfix : jsTrim t = t := jsTrim_of_emailValid hv
    simp [emailIssues, hfix, hv, Nat.not_lt.mpr hlen]

/-- C8 witness: a shapeless value is rejected, a well-formed address is
accepted. -/
theorem email_rule_spec_witness :
    "Please enter a valid email" ∈ emailIssues "plainaddress" ∧
    emailIssues "jane@acme.com" = [] := by
  have h := email_rule_spec "plainaddress" "jane@acme.com"
  exact ⟨h.2.1 (h.1 (by decide)), h.2.2.1 (by decide) (by decide)⟩

/-- C9: in every reachable state the stored phone value uses only allowed
characters and is at most 20 long, so the phone rule reports no issue on it
and a submit from any reachable state leaves the phone field error-free: the
phone-error branch is unreachable through the UI. -/
theorem phone_invariant_spec (s : ComponentState) (h : Reachable s) :
    (∀ c ∈ s.formData.phone.data, isPhoneChar c = true) ∧
    s.formData.phone.length ≤ 20 ∧
    fieldIssues s.formData FieldId.phone = [] ∧
    (handleSubmit s).1.errors.get FieldId.phone = none := by
  obtain ⟨h1, h2, -, -⟩ := reachable_inv h
  have hpi : phoneIssues s.formData.phone = [] := phoneIssues_of_le _ h2
  refine ⟨h1, h2, ?_, ?_⟩
  · simp only [fieldIssues]
    exact hpi
  · by_cases hv : formIssues s.formData = []
    · rw [(handleSubmit_valid_state hv).1]
      rfl
    · rw [(handleSubmit_fail_state hv).1, collectErrors_get]
      simp only [fieldIssues]
      rw [hpi]
      rfl

/-- C9 witness: the invariant after typing a junk value into the phone
field. -/
theorem phone_invariant_spec_witness :
    fieldIssues junkPhoneState.formData FieldId.phone = [] ∧
    junkPhoneState.formData.phone.length ≤ 20 := by
  have h := phone_invariant_spec junkPhoneState
    (Reachable.step Reachable.init (Step.phoneChange initialState _ rfl))
  exact ⟨h.2.2.1, h.2.1⟩

/-- C10: the non-empty and maximum-length rules of name, email, company and
automationGoal apply to the trimmed value: a whitespace-only value is
rejected as empty (required message, or shape message for email), and a
value whose trimmed length fits that field's own limit (100 for name and
company, 500 for automationGoal, 255 for email, the email additionally of
valid trimmed shape) passes even when the raw length exceeds the limit. -/
theorem trimmed_validation_spec (s t u : String) :
    ((∀ c ∈ s.data, isJsWhitespace c = true) →
      nameIssues s = ["Name is required"] ∧
      companyIssues s = ["Company name is required"] ∧
      automationGoalIssues s = ["Please describe what you want to automate"] ∧
      emailIssues s = ["Please enter a valid email"]) ∧
    (1 ≤ (jsTrim t).length →
      ((jsTrim t).length ≤ 100 → nameIssues t = [] ∧ companyIssues t = []) ∧
      ((jsTrim t).length ≤ 500 → automationGoalIssues t = [])) ∧
    (zodEmailValid (jsTrim u) = true → (jsTrim u).length ≤ 255 →
      emailIssues u = []) := by
  refine ⟨?_, ?_, ?_⟩
  · intro hws
    have hjt : jsTrim s = "" := by
      show String.mk (trimList s.data) = ""
      rw [trimList_eq_nil s.data hws]
    refine ⟨?_, ?_, ?_, ?_⟩
    · simp only [nameIssues]
      rw [hjt]
      decide
    · simp only [companyIssues]
      rw [hjt]
      decide
    · simp only [automationGoalIssues]
      rw [hjt]
      decide
    · simp only [emailIssues]
      rw [hjt]
      decide
  · intro h1
    have hn1 : ¬((jsTrim t).length < 1) := by omega
    constructor
    · intro h100
      have hn100 : ¬(100 < (jsTrim t).length) := by omega
      simp only [nameIssues, companyIssues]
      simp only [if_neg hn1, if_neg hn100, List.append_nil]
      exact ⟨trivial, trivial⟩
    · intro h500
      have hn500 : ¬(500 < (jsTrim t).length) := by omega
      simp only [automationGoalIssues]
      simp only [if_neg hn1, if_neg hn500, List.append_nil]
  · intro hv hlen
    have hvne : ¬(zodEmailValid (jsTrim u) = false) := by simp [hv]
    have hn255 : ¬(255 < (jsTrim u).length) := by omega
    simp only [emailIssues]
    simp only [if_neg hvne, if_neg hn255, List.append_nil]

set_option maxRecDepth 4000 in
/-- C10 witness: a whitespace-only name is "required"-rejected; 100 letters
plus a trailing space (101 characters raw) pass the 100-character name rule;
300 letters plus 300 spaces (600 characters raw, 300 trimmed) pass the
500-character automationGoal rule; a valid address padded to 263 characters
(13 trimmed) passes the 255-character email rule. -/
theorem trimmed_validation_spec_witness :
    nameIssues "   " = ["Name is required"] ∧
    (nameIssues padded101 = [] ∧ padded101.length = 101) ∧
    (automationGoalIssues padded600 = [] ∧ padded600.length = 600) ∧
    (emailIssues paddedEmail = [] ∧ paddedEmail.length = 263) := by
  have h1 := trimmed_validation_spec "   " padded101 paddedEmail
  have h2 := trimmed_validation_spec "   " padded600 paddedEmail
  exact ⟨(h1.1 (by decide)).1,
    ⟨((h1.2.1 (by decide)).1 (by decide)).1, by decide⟩,
    ⟨(h2.2.1 (by decide)).2 (by decide), by decide⟩,
    ⟨h1.2.2 (by decide) (by decide), by decide⟩⟩

end LeadCapture
